import Mathlib

/-!
Verification of the task query and mutation layer of a CRUD task API.

The development shallowly embeds the Python source:
* `models.py`   — the `Task` row type and its `touch` helper;
* `schemas.py`  — pydantic validation of create/patch payloads, including the
  collapse of JSON `null` and "field absent" into Python `None`;
* `main.py`     — the seven endpoint handlers (list, create, get, replace
  (PUT), patch, toggle, delete) operating on a store of rows.

Machine details are modelled as: timestamps are `Nat` instants, the table is a
`List Task` plus an id counter, the PostgreSQL `ILIKE` operator is an explicit
pattern matcher (`likeMatch`) over lower-cased character lists with `%`/`_`
wildcards and backslash escapes, and Python's `str.strip` is `pyStrip`.
-/

set_option maxRecDepth 8192

namespace TodoApi

/-- Task status enumeration (`models.py` / `schemas.py`): exactly two values. -/
inductive TaskStatus where
  | pending
  | completed
deriving DecidableEq, Repr

/-- A stored task row (`models.py`, class `Task`). Timestamps are `Nat` instants. -/
structure Task where
  id : Nat
  title : String
  description : Option String
  status : TaskStatus
  created_at : Nat
  updated_at : Nat
deriving DecidableEq, Repr

/-- The `Task.touch` method: set `updated_at` to the current time. -/
def Task.touch (t : Task) (now : Nat) : Task :=
  { t with updated_at := now }

/-- The task table plus the next auto-assigned primary key. -/
structure Store where
  tasks : List Task
  nextId : Nat
deriving DecidableEq, Repr

/-- Primary-key lookup, `db.get(Task, task_id)`. -/
def Store.find (s : Store) (id : Nat) : Option Task :=
  s.tasks.find? (fun t => t.id == id)

/-- Overwrite the row(s) with the given primary key (ORM mutation + commit). -/
def Store.updateTask (s : Store) (id : Nat) (f : Task → Task) : Store :=
  { s with tasks := s.tasks.map (fun t => if t.id == id then f t else t) }

/-- Characters stripped by Python's `str.strip()` (ASCII whitespace). -/
def isPySpace (c : Char) : Bool :=
  c = ' ' || c = '\t' || c = '\n' || c = '\r' || c = '\x0b' || c = '\x0c'

/-- Strip leading and trailing whitespace from a character list. -/
def stripChars (l : List Char) : List Char :=
  ((l.dropWhile isPySpace).reverse.dropWhile isPySpace).reverse

/-- Python's `title.strip()`: drop leading and trailing whitespace. -/
def pyStrip (s : String) : String :=
  String.mk (stripChars s.data)

/-- A field of a JSON request body: absent, explicit `null`, or a value.
This is the raw request-layer view, before pydantic parsing collapses
`absent` and `null` into Python `None`. -/
inductive JsonField (α : Type) where
  | absent
  | null
  | value (v : α)
deriving DecidableEq, Repr

/-- Pydantic's view of an optional-with-`None`-default field: both an absent
field and an explicit `null` become `None`. -/
def JsonField.toOption {α : Type} : JsonField α → Option α
  | .absent => none
  | .null => none
  | .value v => some v

/-- Error taxonomy of the endpoints: 404 and 422. -/
inductive ApiError where
  | notFound
  | validation
deriving DecidableEq, Repr

instance {ε α : Type} [DecidableEq ε] [DecidableEq α] : DecidableEq (Except ε α) :=
  fun x y =>
    match x, y with
    | .error e1, .error e2 =>
      if h : e1 = e2 then .isTrue (by rw [h]) else .isFalse (by simp [h])
    | .error _, .ok _ => .isFalse (by simp)
    | .ok _, .error _ => .isFalse (by simp)
    | .ok a1, .ok a2 =>
      if h : a1 = a2 then .isTrue (by rw [h]) else .isFalse (by simp [h])

/-- Raw JSON body of a create (POST) or replace (PUT) request. -/
structure RawTaskCreate where
  title : JsonField String
  description : JsonField String
  status : JsonField TaskStatus
deriving DecidableEq, Repr

/-- A validated `TaskCreate` payload (`schemas.py`, `TaskCreate`). -/
structure TaskCreate where
  title : String
  description : Option String
  status : TaskStatus
deriving DecidableEq, Repr

/-- Validation of `TaskBase.title`: pydantic `min_length=1, max_length=255`
checked on the raw string, then the `title_not_empty` validator, which
rejects whitespace-only titles and returns the stripped string. -/
def parseCreateTitle (v : String) : Except ApiError String :=
  if v.length < 1 then .error .validation
  else if 255 < v.length then .error .validation
  else if (pyStrip v).isEmpty then .error .validation
  else .ok (pyStrip v)

/-- Pydantic parsing of a `TaskCreate` body: `title` is required (absent or
`null` is a validation error), `description` is optional, `status` defaults
to `pending` when absent but rejects an explicit `null` (it is not
`Optional`). -/
def parseTaskCreate (r : RawTaskCreate) : Except ApiError TaskCreate :=
  match r.title with
  | .value v =>
    match parseCreateTitle v with
    | .error e => .error e
    | .ok tv =>
      match r.status with
      | .null => .error .validation
      | .absent => .ok ⟨tv, r.description.toOption, .pending⟩
      | .value st => .ok ⟨tv, r.description.toOption, st⟩
  | _ => .error .validation

/-- Raw JSON body of a patch (PATCH) request. -/
structure RawTaskPatch where
  title : JsonField String
  description : JsonField String
  status : JsonField TaskStatus
deriving DecidableEq, Repr

/-- A parsed `TaskUpdate` payload (`schemas.py`, `TaskUpdate`): every field
`Optional` with default `None`. -/
structure TaskUpdate where
  title : Option String
  description : Option String
  status : Option TaskStatus
deriving DecidableEq, Repr

/-- Validation of `TaskUpdate.title` when supplied: `min_length=1,
max_length=255` on the raw string, then `title_not_empty_if_present`,
returning the stripped string. -/
def parseUpdateTitle (v : String) : Except ApiError String :=
  if v.length < 1 then .error .validation
  else if 255 < v.length then .error .validation
  else if (pyStrip v).isEmpty then .error .validation
  else .ok (pyStrip v)

/-- Pydantic parsing of a `TaskUpdate` body. All three fields are `Optional`
with default `None`, so an absent field and an explicit `null` both parse to
`none` — the request layer does not preserve the absent/null distinction. -/
def parseTaskUpdate (r : RawTaskPatch) : Except ApiError TaskUpdate :=
  match r.title with
  | .value v =>
    match parseUpdateTitle v with
    | .error e => .error e
    | .ok tv => .ok ⟨some tv, r.description.toOption, r.status.toOption⟩
  | _ => .ok ⟨none, r.description.toOption, r.status.toOption⟩

/-- The `POST /tasks` handler (`main.py`, `create_task`): validate, build the
row with `title=payload.title.strip()` and both timestamps set to `now`,
insert it. Validation failure happens before the handler runs, so the store
is returned unchanged then. -/
def create_task (s : Store) (r : RawTaskCreate) (now : Nat) :
    Except ApiError Task × Store :=
  match parseTaskCreate r with
  | .error e => (.error e, s)
  | .ok p =>
    let task : Task :=
      { id := s.nextId
        title := pyStrip p.title
        description := p.description
        status := p.status
        created_at := now
        updated_at := now }
    (.ok task, ⟨s.tasks ++ [task], s.nextId + 1⟩)

/-- The `GET /tasks/{task_id}` handler (`main.py`, `get_task`). -/
def get_task (s : Store) (task_id : Nat) : Except ApiError Task × Store :=
  match s.find task_id with
  | none => (.error .notFound, s)
  | some t => (.ok t, s)

/-- The `PUT /tasks/{task_id}` handler (`main.py`, `update_task`): full
replacement of title (stripped), description and status, then `touch`. -/
def update_task (s : Store) (task_id : Nat) (r : RawTaskCreate) (now : Nat) :
    Except ApiError Task × Store :=
  match parseTaskCreate r with
  | .error e => (.error e, s)
  | .ok p =>
    match s.find task_id with
    | none => (.error .notFound, s)
    | some t =>
      let t2 : Task :=
        { t with
          title := pyStrip p.title
          description := p.description
          status := p.status
          updated_at := now }
      (.ok t2, s.updateTask task_id (fun _ => t2))

/-- The body of the `patch_task` handler on a found row: each field is applied
only when the parsed payload carries a non-`None` value
(`if payload.field is not None`), then `touch` runs unconditionally. -/
def applyUpdate (t : Task) (p : TaskUpdate) (now : Nat) : Task :=
  let t1 : Task := match p.title with
    | some v => { t with title := pyStrip v }
    | none => t
  let t2 : Task := match p.description with
    | some d => { t1 with description := some d }
    | none => t1
  let t3 : Task := match p.status with
    | some st => { t2 with status := st }
    | none => t2
  t3.touch now

/-- The `PATCH /tasks/{task_id}` handler (`main.py`, `patch_task`). -/
def patch_task (s : Store) (task_id : Nat) (r : RawTaskPatch) (now : Nat) :
    Except ApiError Task × Store :=
  match parseTaskUpdate r with
  | .error e => (.error e, s)
  | .ok p =>
    match s.find task_id with
    | none => (.error .notFound, s)
    | some t =>
      let t4 : Task := applyUpdate t p now
      (.ok t4, s.updateTask task_id (fun _ => t4))

/-- The `PATCH /tasks/{task_id}/toggle` handler (`main.py`,
`toggle_task_status`): flip the two-valued status, then `touch`. -/
def toggle_task_status (s : Store) (task_id : Nat) (now : Nat) :
    Except ApiError Task × Store :=
  match s.find task_id with
  | none => (.error .notFound, s)
  | some t =>
    let t2 : Task :=
      ({ t with
         status := if t.status = TaskStatus.pending then TaskStatus.completed
                   else TaskStatus.pending }).touch now
    (.ok t2, s.updateTask task_id (fun _ => t2))

/-- The `DELETE /tasks/{task_id}` handler (`main.py`, `delete_task`):
permanently remove the row. -/
def delete_task (s : Store) (task_id : Nat) : Except ApiError Unit × Store :=
  match s.find task_id with
  | none => (.error .notFound, s)
  | some _ => (.ok (), { s with tasks := s.tasks.filter (fun t => !(t.id == task_id)) })

/-- Lower-case a character list (PostgreSQL case folding for `ILIKE`). -/
def lowerStr (l : List Char) : List Char :=
  l.map Char.toLower

/-- Test whether `f` accepts some suffix of the subject (the effect of a `%`
wildcard in front of the rest of the pattern). -/
def likeStar (f : List Char → Bool) : List Char → Bool
  | [] => f []
  | c :: s => f (c :: s) || likeStar f s

/-- SQL `LIKE` pattern matching: `%` matches any sequence, `_` matches exactly
one character, a backslash escapes the following pattern character, and every
other character matches itself. -/
def likeMatch : List Char → List Char → Bool
  | [], s => s.isEmpty
  | a :: p, s =>
    if a = '%' then likeStar (fun t => likeMatch p t) s
    else if a = '\\' then
      match p, s with
      | e :: p2, c :: s2 => e == c && likeMatch p2 s2
      | _, _ => false
    else if a = '_' then
      match s with
      | [] => false
      | _ :: s2 => likeMatch p s2
    else
      match s with
      | [] => false
      | c :: s2 => a == c && likeMatch p s2

/-- PostgreSQL `ILIKE`: case-insensitive `LIKE`, modelled by lower-casing both
the pattern and the subject. -/
def ilike (title : String) (pat : List Char) : Bool :=
  likeMatch (lowerStr pat) (lowerStr title.data)

/-- The WHERE clause of `list_tasks`: `if q:` is Python truthiness, so a
missing or empty query matches everything; otherwise the title is matched
against the unescaped pattern `%q%` with `ILIKE`. -/
def matchesQuery (q : Option String) (t : Task) : Bool :=
  match q with
  | none => true
  | some qs => if qs.isEmpty then true else ilike t.title ('%' :: qs.data ++ ['%'])

/-- The `ORDER BY created_at DESC` ordering relation. -/
def createdDesc (a b : Task) : Prop :=
  b.created_at ≤ a.created_at

instance : DecidableRel createdDesc :=
  fun _ _ => Nat.decLe _ _

instance : IsTotal Task createdDesc :=
  ⟨fun a b => Nat.le_total b.created_at a.created_at⟩

instance : IsTrans Task createdDesc :=
  ⟨fun _ _ _ h1 h2 => Nat.le_trans h2 h1⟩

/-- The rows matched by the (shared) WHERE clause of both the count statement
and the page statement of `list_tasks`. -/
def matchedTasks (s : Store) (q : Option String) : List Task :=
  s.tasks.filter (matchesQuery q)

/-- The `SELECT count(*)` statement of `list_tasks`. -/
def countTasks (s : Store) (q : Option String) : Nat :=
  (matchedTasks s q).length

/-- The page statement of `list_tasks`: order by `created_at` descending,
then `OFFSET (page-1)*page_size LIMIT page_size`. -/
def pageItems (s : Store) (page page_size : Nat) (q : Option String) : List Task :=
  ((List.insertionSort createdDesc (matchedTasks s q)).drop ((page - 1) * page_size)).take
    page_size

/-- The paginated response shape (`schemas.py`, `PaginatedTasks`). -/
structure PaginatedTasks where
  total : Nat
  page : Nat
  page_size : Nat
  items : List Task
deriving DecidableEq, Repr

/-- The `GET /tasks` handler (`main.py`, `list_tasks`). -/
def list_tasks (s : Store) (page page_size : Nat) (q : Option String) :
    PaginatedTasks :=
  ⟨countTasks s q, page, page_size, pageItems s page page_size q⟩

/-- An API mutation, for stating state invariants across operations. -/
inductive Op where
  | createOp (r : RawTaskCreate)
  | replaceOp (id : Nat) (r : RawTaskCreate)
  | patchOp (id : Nat) (r : RawTaskPatch)
  | toggleOp (id : Nat)
  | deleteOp (id : Nat)

/-- The store after one mutating endpoint call at time `now`. -/
def applyOp (op : Op) (now : Nat) (s : Store) : Store :=
  match op with
  | .createOp r => (create_task s r now).2
  | .replaceOp id r => (update_task s id r now).2
  | .patchOp id r => (patch_task s id r now).2
  | .toggleOp id => (toggle_task_status s id now).2
  | .deleteOp id => (delete_task s id).2

/-- Timestamp invariant: every stored row was updated no earlier than it was
created and no later than the current time. -/
def Inv (s : Store) (now : Nat) : Prop :=
  ∀ t ∈ s.tasks, t.created_at ≤ t.updated_at ∧ t.updated_at ≤ now

/-- A concrete stored row, used to instantiate the theorems below. -/
def sampleTask : Task :=
  ⟨1, ("Buy milk"), some ("whole"), .pending, 0, 0⟩

/-- A concrete store holding `sampleTask`. -/
def sampleStore : Store :=
  ⟨[sampleTask], 2⟩

/-- A PATCH body whose `description` is an explicit JSON `null`. -/
def nullDescPatch : RawTaskPatch :=
  ⟨.absent, .null, .absent⟩

/-- A 256-character raw title whose stripped form has 255 characters. -/
def longTitle : String :=
  String.mk (' ' :: List.replicate 255 'a')

/-- A row whose one-character title contains no underscore. -/
def aTask : Task :=
  ⟨1, ("a"), none, .pending, 0, 0⟩

/-- A concrete store holding `aTask`. -/
def aStore : Store :=
  ⟨[aTask], 2⟩

/-! Helper lemmas: idempotence of stripping, and primary-key lookup after a
row update. -/

theorem dropWhile_dropWhile (p : Char → Bool) (l : List Char) :
    (l.dropWhile p).dropWhile p = l.dropWhile p := by
  induction l with
  | nil => rfl
  | cons a l ih =>
    by_cases h : p a
    · simp [List.dropWhile_cons, h, ih]
    · simp [List.dropWhile_cons, h]

theorem dropWhile_eq_self_of_pfx (p : Char → Bool) (l m : List Char)
    (hl : l.dropWhile p = l) (hm : m <+: l) : m.dropWhile p = m := by
  cases m with
  | nil => rfl
  | cons a m2 =>
    cases l with
    | nil => simp [List.prefix_nil] at hm
    | cons b l2 =>
      rw [List.cons_prefix_cons] at hm
      obtain ⟨rfl, -⟩ := hm
      by_cases h : p a
      · exfalso
        rw [List.dropWhile_cons] at hl
        simp only [h, if_true] at hl
        have h1 := congrArg List.length hl
        have h2 := (List.dropWhile_suffix (l := l2) p).length_le
        simp at h1
        omega
      · simp [List.dropWhile_cons, h]

theorem stripChars_idem (l : List Char) : stripChars (stripChars l) = stripChars l := by
  have h1 : (l.dropWhile isPySpace).dropWhile isPySpace = l.dropWhile isPySpace :=
    dropWhile_dropWhile _ _
  have hpre : stripChars l <+: l.dropWhile isPySpace := by
    have h2 := List.dropWhile_suffix (l := (l.dropWhile isPySpace).reverse) isPySpace
    have h3 := List.reverse_prefix.mpr h2
    simpa [stripChars] using h3
  have h4 : (stripChars l).dropWhile isPySpace = stripChars l :=
    dropWhile_eq_self_of_pfx _ _ _ h1 hpre
  have h5 : (stripChars l).reverse.dropWhile isPySpace = (stripChars l).reverse := by
    have : (stripChars l).reverse = (l.dropWhile isPySpace).reverse.dropWhile isPySpace := by
      simp [stripChars]
    rw [this]
    exact dropWhile_dropWhile _ _
  have h6 : stripChars (stripChars l)
      = (((stripChars l).dropWhile isPySpace).reverse.dropWhile isPySpace).reverse := rfl
  rw [h6, h4, h5, List.reverse_reverse]

theorem pyStrip_idem (s : String) : pyStrip (pyStrip s) = pyStrip s := by
  have h : pyStrip (pyStrip s) = String.mk (stripChars (stripChars s.data)) := rfl
  rw [h, stripChars_idem]
  rfl

theorem find?_map_update (l : List Task) (id : Nat) (f : Task → Task) (t : Task)
    (h : l.find? (fun u => u.id == id) = some t) (hid : (f t).id = t.id) :
    (l.map (fun u => if u.id == id then f u else u)).find? (fun u => u.id == id)
      = some (f t) := by
  induction l with
  | nil => simp at h
  | cons a l ih =>
    by_cases ha : a.id = id
    · have hab : (a.id == id) = true := beq_iff_eq.mpr ha
      have h2 : List.find? (fun u => u.id == id) (a :: l) = some a :=
        List.find?_cons_of_pos l hab
      rw [h2] at h
      have hat : a = t := Option.some.inj h
      subst hat
      rw [List.map_cons]
      have hfa : (if a.id == id then f a else a) = f a := by rw [hab]; rfl
      rw [hfa]
      have h3 : ((f a).id == id) = true := by rw [hid]; exact hab
      exact List.find?_cons_of_pos _ h3
    · have hab : (a.id == id) = false := by simp [ha]
      have h2 : List.find? (fun u => u.id == id) (a :: l)
          = List.find? (fun u => u.id == id) l :=
        List.find?_cons_of_neg l (by simp [hab])
      rw [h2] at h
      rw [List.map_cons]
      have hfa : (if a.id == id then f a else a) = a := by rw [hab]; rfl
      rw [hfa]
      have h3 : List.find? (fun u => u.id == id)
          (a :: List.map (fun u => if u.id == id then f u else u) l)
          = List.find? (fun u => u.id == id)
            (List.map (fun u => if u.id == id then f u else u) l) :=
        List.find?_cons_of_neg _ (by simp [hab])
      rw [h3]
      exact ih h

/-- Lookup after `Store.updateTask` at the same key: yields the updated row,
provided the update preserves the key. -/
theorem Store.find_updateTask (s : Store) (id : Nat) (f : Task → Task) (t : Task)
    (h : s.find id = some t) (hid : (f t).id = t.id) :
    (s.updateTask id f).find id = some (f t) :=
  find?_map_update s.tasks id f t h hid

/-! Lemmas about the LIKE pattern matcher. -/

/-- A character that is not a LIKE metacharacter. -/
def goodChar (c : Char) : Prop :=
  c ≠ '%' ∧ c ≠ '_' ∧ c ≠ '\\'

instance : DecidablePred goodChar := fun c => by
  unfold goodChar
  infer_instance

theorem likeStar_nil (f : List Char → Bool) : likeStar f [] = f [] := rfl

theorem likeStar_cons (f : List Char → Bool) (c : Char) (s : List Char) :
    likeStar f (c :: s) = (f (c :: s) || likeStar f s) := rfl

theorem likeMatch_cons_pct (p s : List Char) :
    likeMatch ('%' :: p) s = likeStar (fun t => likeMatch p t) s := by
  rw [likeMatch.eq_def]
  simp

theorem likeMatch_pct (s : List Char) : likeMatch ['%'] s = true := by
  induction s with
  | nil => rfl
  | cons c s ih =>
    rw [likeMatch_cons_pct, likeStar_cons]
    rw [likeMatch_cons_pct] at ih
    simp only [likeMatch, List.isEmpty_cons, Bool.false_or]
    exact ih

theorem likeMatch_cons_nil (a : Char) (p : List Char) (h : a ≠ '%') :
    likeMatch (a :: p) [] = false := by
  rw [likeMatch.eq_def]
  by_cases h2 : a = '\\' <;> by_cases h3 : a = '_' <;> simp [h, h2, h3]

theorem likeMatch_cons_lit (a c : Char) (p s : List Char)
    (h1 : a ≠ '%') (h2 : a ≠ '_') (h3 : a ≠ '\\') :
    likeMatch (a :: p) (c :: s) = (a == c && likeMatch p s) := by
  rw [likeMatch.eq_def]
  simp [h1, h2, h3]

theorem likeMatch_lit_pct (q : List Char) (hq : ∀ c ∈ q, goodChar c) :
    ∀ s, (likeMatch (q ++ ['%']) s = true ↔ q <+: s) := by
  induction q with
  | nil =>
    intro s
    simp [likeMatch_pct, List.nil_prefix]
  | cons a q ih =>
    intro s
    obtain ⟨h1, h2, h3⟩ := hq a (List.mem_cons_self a q)
    have hq2 : ∀ c ∈ q, goodChar c := fun c hc => hq c (List.mem_cons_of_mem a hc)
    cases s with
    | nil =>
      rw [List.cons_append, likeMatch_cons_nil _ _ h1]
      simp
    | cons c s =>
      rw [List.cons_append, likeMatch_cons_lit _ _ _ _ h1 h2 h3,
        List.cons_prefix_cons]
      simp [Bool.and_eq_true, beq_iff_eq, ih hq2 s]

theorem likeMatch_pct_suffixes (p : List Char) :
    ∀ s, (likeMatch ('%' :: p) s = true ↔ ∃ t, t <:+ s ∧ likeMatch p t = true) := by
  intro s
  induction s with
  | nil =>
    rw [likeMatch_cons_pct, likeStar_nil]
    constructor
    · intro h
      exact ⟨[], List.suffix_refl [], h⟩
    · rintro ⟨t, ht, hm⟩
      rw [List.suffix_nil] at ht
      subst ht
      exact hm
  | cons c s ih =>
    rw [likeMatch_cons_pct, likeStar_cons]
    rw [likeMatch_cons_pct] at ih
    simp only [Bool.or_eq_true]
    constructor
    · rintro (h | h)
      · exact ⟨c :: s, List.suffix_refl _, h⟩
      · obtain ⟨t, ht, hm⟩ := ih.mp h
        exact ⟨t, ht.trans (List.suffix_cons c s), hm⟩
    · rintro ⟨t, ht, hm⟩
      rw [List.suffix_cons_iff] at ht
      rcases ht with rfl | ht
      · left; exact hm
      · right; exact ih.mpr ⟨t, ht, hm⟩

theorem likeMatch_substring (q : List Char) (hq : ∀ c ∈ q, goodChar c)
    (s : List Char) :
    likeMatch ('%' :: (q ++ ['%'])) s = true ↔ q <:+: s := by
  rw [likeMatch_pct_suffixes]
  constructor
  · rintro ⟨t, ht, hm⟩
    exact List.infix_iff_prefix_suffix.mpr ⟨t, (likeMatch_lit_pct q hq t).mp hm, ht⟩
  · intro h
    obtain ⟨t, hp, hs⟩ := List.infix_iff_prefix_suffix.mp h
    exact ⟨t, hs, (likeMatch_lit_pct q hq t).mpr hp⟩

theorem toLower_eq (c : Char) :
    Char.toLower c = c
      ∨ (65 ≤ c.toNat ∧ c.toNat ≤ 90 ∧ Char.toLower c = Char.ofNat (c.toNat + 32)) := by
  simp only [Char.toLower]
  by_cases h : c.toNat ≥ 65 ∧ c.toNat ≤ 90
  · right; simp [h]
  · left; simp [h]

theorem toLower_goodChar (c : Char) (h : goodChar c) : goodChar (Char.toLower c) := by
  rcases toLower_eq c with heq | ⟨h65, h90, heq⟩
  · rw [heq]; exact h
  · rw [heq]
    clear heq h
    generalize hg : c.toNat = n at h65 h90
    interval_cases n <;> decide

theorem lowerStr_goodChar (l : List Char) (hl : ∀ c ∈ l, goodChar c) :
    ∀ c ∈ lowerStr l, goodChar c := by
  intro c hc
  obtain ⟨d, hd, rfl⟩ := List.mem_map.mp hc
  exact toLower_goodChar d (hl d hd)

theorem ilike_substring (title q : String) (hq : ∀ c ∈ q.data, goodChar c) :
    ilike title ('%' :: q.data ++ ['%']) = true
      ↔ lowerStr q.data <:+: lowerStr title.data := by
  have h1 : lowerStr ('%' :: q.data ++ ['%']) = '%' :: (lowerStr q.data ++ ['%']) := by
    simp [lowerStr, (by decide : Char.toLower '%' = '%')]
  unfold ilike
  rw [h1]
  exact likeMatch_substring (lowerStr q.data) (lowerStr_goodChar q.data hq)
    (lowerStr title.data)

/-! Characterizations of parsing, the patch row update, and the invariant. -/

theorem isEmpty_false_of_ne (s : String) (h : s ≠ "") : s.isEmpty = false := by
  cases he : s.isEmpty
  · rfl
  · exact absurd ((String.isEmpty_iff s).mp he) h

theorem parseCreateTitle_ok (v tv : String) (h : parseCreateTitle v = .ok tv) :
    tv = pyStrip v ∧ 1 ≤ v.length ∧ v.length ≤ 255 ∧ (pyStrip v).isEmpty = false := by
  unfold parseCreateTitle at h
  by_cases h1 : v.length < 1
  · rw [if_pos h1] at h
    exact absurd h (by simp)
  · rw [if_neg h1] at h
    by_cases h2 : 255 < v.length
    · rw [if_pos h2] at h
      exact absurd h (by simp)
    · rw [if_neg h2] at h
      by_cases h3 : (pyStrip v).isEmpty
      · rw [if_pos h3] at h
        exact absurd h (by simp)
      · rw [if_neg h3] at h
        refine ⟨(Except.ok.inj h).symm, by omega, by omega, by simp [h3]⟩

theorem parseCreateTitle_whitespace (v : String) (h : pyStrip v = "") :
    parseCreateTitle v = .error .validation := by
  unfold parseCreateTitle
  by_cases h1 : v.length < 1
  · rw [if_pos h1]
  · rw [if_neg h1]
    by_cases h2 : 255 < v.length
    · rw [if_pos h2]
    · rw [if_neg h2, if_pos (by rw [h]; rfl)]

theorem parseTaskCreate_ok (r : RawTaskCreate) (p : TaskCreate)
    (h : parseTaskCreate r = .ok p) :
    (∃ v, r.title = .value v ∧ parseCreateTitle v = .ok p.title)
      ∧ p.description = r.description.toOption
      ∧ (r.status = .absent → p.status = .pending)
      ∧ (∀ st, r.status = .value st → p.status = st) := by
  rcases r with ⟨rt, rd, rs⟩
  cases rt with
  | absent => exact absurd h (by simp [parseTaskCreate])
  | null => exact absurd h (by simp [parseTaskCreate])
  | value v =>
    simp only [parseTaskCreate] at h
    cases hv : parseCreateTitle v with
    | error e => rw [hv] at h; exact absurd h (by simp)
    | ok tv =>
      rw [hv] at h
      cases rs with
      | null => exact absurd h (by simp)
      | absent =>
        obtain rfl := (Except.ok.inj h).symm
        refine ⟨⟨v, rfl, hv⟩, rfl, fun _ => rfl, ?_⟩
        intro st hst
        cases hst
      | value st =>
        obtain rfl := (Except.ok.inj h).symm
        refine ⟨⟨v, rfl, hv⟩, rfl, ?_, ?_⟩
        · intro hab
          cases hab
        · intro st2 hst
          obtain rfl := JsonField.value.inj hst
          rfl

theorem parseTaskUpdate_ok (r : RawTaskPatch) (u : TaskUpdate)
    (h : parseTaskUpdate r = .ok u) :
    u.description = r.description.toOption
      ∧ u.status = r.status.toOption
      ∧ ((r.title.toOption = none ∧ u.title = none)
        ∨ (∃ v, r.title = .value v ∧ u.title = some (pyStrip v))) := by
  rcases r with ⟨rt, rd, rs⟩
  cases rt with
  | absent =>
    obtain rfl := (Except.ok.inj h).symm
    exact ⟨rfl, rfl, Or.inl ⟨rfl, rfl⟩⟩
  | null =>
    obtain rfl := (Except.ok.inj h).symm
    exact ⟨rfl, rfl, Or.inl ⟨rfl, rfl⟩⟩
  | value v =>
    simp only [parseTaskUpdate] at h
    cases hv : parseUpdateTitle v with
    | error e => rw [hv] at h; exact absurd h (by simp)
    | ok tv =>
      rw [hv] at h
      obtain rfl := (Except.ok.inj h).symm
      have htv : tv = pyStrip v := by
        unfold parseUpdateTitle at hv
        by_cases h1 : v.length < 1
        · rw [if_pos h1] at hv; exact absurd hv (by simp)
        · rw [if_neg h1] at hv
          by_cases h2 : 255 < v.length
          · rw [if_pos h2] at hv; exact absurd hv (by simp)
          · rw [if_neg h2] at hv
            by_cases h3 : (pyStrip v).isEmpty
            · rw [if_pos h3] at hv; exact absurd hv (by simp)
            · rw [if_neg h3] at hv; exact (Except.ok.inj hv).symm
      exact ⟨rfl, rfl, Or.inr ⟨v, rfl, by rw [htv]⟩⟩

theorem applyUpdate_fields (t : Task) (p : TaskUpdate) (now : Nat) :
    (applyUpdate t p now).id = t.id
      ∧ (applyUpdate t p now).created_at = t.created_at
      ∧ (applyUpdate t p now).updated_at = now
      ∧ (applyUpdate t p now).title
          = (match p.title with | some v => pyStrip v | none => t.title)
      ∧ (applyUpdate t p now).description
          = (match p.description with | some d => some d | none => t.description)
      ∧ (applyUpdate t p now).status
          = (match p.status with | some st => st | none => t.status) := by
  rcases p with ⟨pt, pd, ps⟩
  cases pt <;> cases pd <;> cases ps <;> simp [applyUpdate, Task.touch]

theorem Inv.mono (s : Store) (t1 t2 : Nat) (h : Inv s t1) (hle : t1 ≤ t2) :
    Inv s t2 := by
  intro u hu
  obtain ⟨ha, hb⟩ := h u hu
  exact ⟨ha, le_trans hb hle⟩

theorem str_isEmpty_data (s : String) : s.isEmpty = s.data.isEmpty := by
  by_cases h : s = ""
  · subst h; rfl
  · have h1 : s.isEmpty = false := isEmpty_false_of_ne s h
    have h2 : s.data.isEmpty = false := by
      cases hd : s.data with
      | nil => exact absurd (String.ext_iff.mpr (by rw [hd])) h
      | cons a l => rfl
    rw [h1, h2]

theorem likeMatch_underscore_nil : likeMatch ['_', '%'] [] = false := by
  rw [likeMatch.eq_def]
  simp

theorem likeMatch_underscore_cons (c : Char) (l : List Char) :
    likeMatch ['_', '%'] (c :: l) = likeMatch ['%'] l := by
  rw [likeMatch.eq_def]
  simp

theorem likeMatch_underscore (l : List Char) :
    likeMatch ['%', '_', '%'] l = !l.isEmpty := by
  cases l with
  | nil =>
    rw [likeMatch_cons_pct, likeStar_nil, likeMatch_underscore_nil]
    rfl
  | cons c l =>
    rw [likeMatch_cons_pct, likeStar_cons]
    simp [likeMatch_underscore_cons, likeMatch_pct]

/-! Claim theorems. -/

/-- C1 counterexample: the claim says a patch whose `description` is an
explicit JSON `null` clears the stored description. On the code, patching
`sampleStore` (whose task has description `some "whole"`) with an
explicit-null description leaves the description equal to `some "whole"`,
which is not `none` — explicit null does not clear it. -/
theorem C1_counterexample :
    patch_task sampleStore 1 nullDescPatch 5
        = (.ok { sampleTask with updated_at := 5 },
           ⟨[{ sampleTask with updated_at := 5 }], 2⟩)
      ∧ { sampleTask with updated_at := 5 }.description = some ("whole")
      ∧ some ("whole") ≠ (none : Option String) :=
  ⟨by decide, by decide, by decide⟩

/-- C1 (amended): for every existing task and patch call, exactly the fields
supplied with non-null values are changed (a supplied title is stored
trimmed) and every field that is omitted or explicitly set to null retains
its current stored value — explicit null is treated the same as omitted, so
it does not clear the description; `updated_at` is refreshed
unconditionally, and `id` and `created_at` are unchanged. -/
theorem C1_patch_null_as_omitted (s : Store) (id now : Nat) (r : RawTaskPatch)
    (u : TaskUpdate) (t : Task)
    (hp : parseTaskUpdate r = .ok u) (h : s.find id = some t) :
    ∃ t4, patch_task s id r now = (.ok t4, s.updateTask id (fun _ => t4))
      ∧ (r.title.toOption = none → t4.title = t.title)
      ∧ (∀ v, r.title = .value v → t4.title = pyStrip v)
      ∧ (r.description.toOption = none → t4.description = t.description)
      ∧ (∀ d, r.description = .value d → t4.description = some d)
      ∧ (r.status.toOption = none → t4.status = t.status)
      ∧ (∀ st, r.status = .value st → t4.status = st)
      ∧ t4.updated_at = now ∧ t4.id = t.id ∧ t4.created_at = t.created_at := by
  have hpe : patch_task s id r now
      = (.ok (applyUpdate t u now), s.updateTask id (fun _ => applyUpdate t u now)) := by
    unfold patch_task
    rw [hp, h]
  obtain ⟨hid, hca, hua, hti, hde, hst⟩ := applyUpdate_fields t u now
  obtain ⟨hud, hus, hut⟩ := parseTaskUpdate_ok r u hp
  refine ⟨applyUpdate t u now, hpe, ?_, ?_, ?_, ?_, ?_, ?_, hua, hid, hca⟩
  · intro hnone
    rcases hut with ⟨-, hunone⟩ | ⟨v, hval, -⟩
    · rw [hunone] at hti
      exact hti
    · rw [hval] at hnone
      exact absurd hnone (by simp [JsonField.toOption])
  · intro v hval
    rcases hut with ⟨hnone, -⟩ | ⟨v2, hval2, hutv⟩
    · rw [hval] at hnone
      exact absurd hnone (by simp [JsonField.toOption])
    · rw [hval] at hval2
      obtain rfl := JsonField.value.inj hval2
      rw [hutv] at hti
      rw [hti]
      exact pyStrip_idem v
  · intro hnone
    rw [hud, hnone] at hde
    exact hde
  · intro d hval
    rw [hud, hval] at hde
    exact hde
  · intro hnone
    rw [hus, hnone] at hst
    exact hst
  · intro st hval
    rw [hus, hval] at hst
    exact hst

/-- C1 witness: the amended theorem applied to the concrete store and the
explicit-null patch body. -/
theorem C1_witness :
    ∃ t4, patch_task sampleStore 1 nullDescPatch 7
        = (.ok t4, sampleStore.updateTask 1 (fun _ => t4))
      ∧ (nullDescPatch.title.toOption = none → t4.title = sampleTask.title)
      ∧ (∀ v, nullDescPatch.title = .value v → t4.title = pyStrip v)
      ∧ (nullDescPatch.description.toOption = none →
          t4.description = sampleTask.description)
      ∧ (∀ d, nullDescPatch.description = .value d → t4.description = some d)
      ∧ (nullDescPatch.status.toOption = none → t4.status = sampleTask.status)
      ∧ (∀ st, nullDescPatch.status = .value st → t4.status = st)
      ∧ t4.updated_at = 7 ∧ t4.id = sampleTask.id
      ∧ t4.created_at = sampleTask.created_at :=
  C1_patch_null_as_omitted sampleStore 1 7 nullDescPatch ⟨none, none, none⟩
    sampleTask (by decide) (by decide)

/-- C5: a create call whose title is empty or whitespace-only fails with a
validation error and leaves the store unchanged; a create call that passes
validation appends exactly one row whose stored title is the trimmed input
title. -/
theorem C5_create_validation (s : Store) (r : RawTaskCreate) (now : Nat) :
    (∀ v, r.title = .value v → pyStrip v = "" →
        create_task s r now = (.error .validation, s))
      ∧ (∀ v p, r.title = .value v → parseTaskCreate r = .ok p →
          ∃ task, create_task s r now
              = (.ok task, ⟨s.tasks ++ [task], s.nextId + 1⟩)
            ∧ task.title = pyStrip v) := by
  constructor
  · intro v hval hws
    have hpt : parseTaskCreate r = .error .validation := by
      rcases r with ⟨rt, rd, rs⟩
      cases hval
      simp [parseTaskCreate, parseCreateTitle_whitespace v hws]
    unfold create_task
    rw [hpt]
  · intro v p hval hok
    unfold create_task
    rw [hok]
    refine ⟨_, rfl, ?_⟩
    obtain ⟨⟨v2, hval2, hct⟩, -, -, -⟩ := parseTaskCreate_ok r p hok
    rw [hval] at hval2
    obtain rfl := JsonField.value.inj hval2
    obtain ⟨htv, -, -, -⟩ := parseCreateTitle_ok v p.title hct
    show pyStrip p.title = pyStrip v
    rw [htv, pyStrip_idem]

/-- C5 witness: a whitespace-only title is rejected with the store unchanged,
and a valid padded title is stored trimmed. -/
theorem C5_witness :
    create_task sampleStore ⟨.value ("   "), .absent, .absent⟩ 9
        = (.error .validation, sampleStore)
      ∧ ∃ task, create_task sampleStore ⟨.value (" Walk dog "), .absent, .absent⟩ 9
          = (.ok task, ⟨sampleStore.tasks ++ [task], sampleStore.nextId + 1⟩)
        ∧ task.title = pyStrip (" Walk dog ") :=
  ⟨(C5_create_validation sampleStore ⟨.value ("   "), .absent, .absent⟩ 9).1
      ("   ") rfl (by decide),
    (C5_create_validation sampleStore ⟨.value (" Walk dog "), .absent, .absent⟩ 9).2
      (" Walk dog ") ⟨pyStrip (" Walk dog "), none, .pending⟩ rfl (by decide)⟩

/-- C10: the 255-character maximum title length is checked on the raw input
string before trimming, for both the create/replace payload validator and
the patch payload validator: any title longer than 255 characters is
rejected, regardless of its trimmed length. -/
theorem C10_title_max_before_trim (v : String) (hv : 255 < v.length) :
    parseCreateTitle v = .error .validation
      ∧ parseUpdateTitle v = .error .validation
      ∧ (∀ (s : Store) (id now : Nat) (rd : JsonField String)
          (rs : JsonField TaskStatus),
          create_task s ⟨.value v, rd, rs⟩ now = (.error .validation, s)
          ∧ update_task s id ⟨.value v, rd, rs⟩ now = (.error .validation, s)) := by
  have hc : parseCreateTitle v = .error .validation := by
    unfold parseCreateTitle
    rw [if_neg (by omega : ¬ v.length < 1), if_pos hv]
  refine ⟨hc, ?_, ?_⟩
  · unfold parseUpdateTitle
    rw [if_neg (by omega : ¬ v.length < 1), if_pos hv]
  · intro s id now rd rs
    have hpt : parseTaskCreate ⟨.value v, rd, rs⟩ = .error .validation := by
      simp [parseTaskCreate, hc]
    constructor
    · unfold create_task
      rw [hpt]
    · unfold update_task
      rw [hpt]

/-- C10 witness: a 256-character raw title whose trimmed length is 255 is
rejected by both validators and by the create and replace endpoints. -/
theorem C10_witness :
    (255 < longTitle.length ∧ (pyStrip longTitle).length ≤ 255)
      ∧ (parseCreateTitle longTitle = .error .validation
        ∧ parseUpdateTitle longTitle = .error .validation
        ∧ (∀ (s : Store) (id now : Nat) (rd : JsonField String)
            (rs : JsonField TaskStatus),
            create_task s ⟨.value longTitle, rd, rs⟩ now = (.error .validation, s)
            ∧ update_task s id ⟨.value longTitle, rd, rs⟩ now
                = (.error .validation, s))) :=
  ⟨⟨by decide, by decide⟩, C10_title_max_before_trim longTitle (by decide)⟩

/-- C2: under valid pagination parameters, a list call returns at most
`page_size` items, its `total` equals the number of rows matching the filter
independently of pagination, and a page past the last one yields an empty
items list (with that same total, which is reported unconditionally). -/
theorem C2_pagination (s : Store) (page page_size : Nat) (q : Option String)
    (h1 : 1 ≤ page) (h2 : 1 ≤ page_size) (h3 : page_size ≤ 100) :
    (list_tasks s page page_size q).items.length ≤ page_size
      ∧ (list_tasks s page page_size q).total
          = (s.tasks.filter (matchesQuery q)).length
      ∧ (countTasks s q ≤ (page - 1) * page_size →
          (list_tasks s page page_size q).items = []) := by
  refine ⟨?_, rfl, ?_⟩
  · show (((List.insertionSort createdDesc (matchedTasks s q)).drop
        ((page - 1) * page_size)).take page_size).length ≤ page_size
    exact List.length_take_le _ _
  · intro hb
    show ((List.insertionSort createdDesc (matchedTasks s q)).drop
        ((page - 1) * page_size)).take page_size = []
    have hlen : (List.insertionSort createdDesc (matchedTasks s q)).length
        = countTasks s q :=
      (List.perm_insertionSort createdDesc (matchedTasks s q)).length_eq
    rw [List.drop_eq_nil_of_le (by rw [hlen]; exact hb), List.take_nil]

/-- C2 witness: page 5 of a one-row store with page size 2 is past the end. -/
theorem C2_witness :
    (list_tasks sampleStore 5 2 none).items.length ≤ 2
      ∧ (list_tasks sampleStore 5 2 none).total
          = (sampleStore.tasks.filter (matchesQuery none)).length
      ∧ (countTasks sampleStore none ≤ 8 →
          (list_tasks sampleStore 5 2 none).items = []) :=
  C2_pagination sampleStore 5 2 none (by decide) (by decide) (by decide)

/-- C3 counterexample: the claim says a present non-empty query matches
exactly the tasks whose title contains it as a case-insensitive substring.
With the query `"_"` the store whose single task is titled `"a"` is matched
in full, yet `"_"` is not a substring of `"a"` (case-insensitively): the
unescaped underscore acts as a wildcard. -/
theorem C3_counterexample :
    matchedTasks aStore (some ("_")) = [aTask]
      ∧ ¬ (lowerStr ("_" : String).data <:+: lowerStr aTask.title.data) :=
  ⟨by decide, by decide⟩

/-- C3 (amended): for every list call the returned items are ordered by
`created_at` descending, whatever the query (absent, empty, or any string);
an absent or empty query matches all tasks; and for a present non-empty
query free of the LIKE metacharacters `%`, `_` and `\`, exactly the tasks
whose title contains the query as a case-insensitive substring are
matched. -/
theorem C3_filter_order (s : Store) (page page_size : Nat) (qs : String) :
    (qs ≠ "" → (∀ c ∈ qs.data, goodChar c) →
      ∀ t, t ∈ matchedTasks s (some qs)
        ↔ t ∈ s.tasks ∧ lowerStr qs.data <:+: lowerStr t.title.data)
      ∧ matchedTasks s none = s.tasks
      ∧ matchedTasks s (some ("")) = s.tasks
      ∧ (∀ q : Option String,
          List.Pairwise createdDesc (list_tasks s page page_size q).items) := by
  refine ⟨?_, ?_, ?_, ?_⟩
  · intro hne hgood t
    have hmq : matchesQuery (some qs) t = ilike t.title ('%' :: qs.data ++ ['%']) := by
      unfold matchesQuery
      simp [isEmpty_false_of_ne qs hne]
    rw [matchedTasks, List.mem_filter, hmq, ilike_substring t.title qs hgood]
  · simp [matchedTasks, matchesQuery]
  · have he : ("" : String).isEmpty = true := rfl
    simp [matchedTasks, matchesQuery, he]
  · intro q
    have hs := List.sorted_insertionSort createdDesc (matchedTasks s q)
    have hsub : List.Sublist
        (((List.insertionSort createdDesc (matchedTasks s q)).drop
          ((page - 1) * page_size)).take page_size)
        (List.insertionSort createdDesc (matchedTasks s q)) :=
      (List.take_sublist _ _).trans (List.drop_sublist _ _)
    exact List.Pairwise.sublist hsub hs

/-- C3 witness: the amended theorem over the sample store, instantiating the
substring clause at the query `"milk"` and the ordering clause at the
absent query and at the wildcard query `"_"`. -/
theorem C3_witness :
    (∀ t, t ∈ matchedTasks sampleStore (some ("milk"))
        ↔ t ∈ sampleStore.tasks
          ∧ lowerStr ("milk" : String).data <:+: lowerStr t.title.data)
      ∧ List.Pairwise createdDesc (list_tasks sampleStore 1 10 none).items
      ∧ List.Pairwise createdDesc
          (list_tasks sampleStore 1 10 (some ("_"))).items :=
  ⟨(C3_filter_order sampleStore 1 10 ("milk")).1 (by decide) (by decide),
    (C3_filter_order sampleStore 1 10 ("milk")).2.2.2 none,
    (C3_filter_order sampleStore 1 10 ("milk")).2.2.2 (some ("_"))⟩

/-- C4: `%` and `_` in the query are not escaped and act as pattern
wildcards: the query `"_"` matches exactly the tasks whose title is
non-empty, and a `%`-bearing query such as `"b%k"` matches a title like
`"Buy milk"` that does not contain it literally. -/
theorem C4_wildcards (s : Store) :
    matchedTasks s (some ("_")) = s.tasks.filter (fun t => !t.title.isEmpty)
      ∧ (∀ t : Task, ((!t.title.isEmpty) = true ↔ t.title ≠ ""))
      ∧ matchedTasks aStore (some ("_")) = [aTask]
      ∧ matchedTasks sampleStore (some ("b%k")) = [sampleTask]
      ∧ ¬ (lowerStr ("b%k" : String).data <:+: lowerStr sampleTask.title.data) := by
  refine ⟨?_, ?_, by decide, by decide, by decide⟩
  · unfold matchedTasks
    apply List.filter_congr
    intro t ht
    show ilike t.title ('%' :: ("_" : String).data ++ ['%']) = !t.title.isEmpty
    show likeMatch ['%', '_', '%'] (lowerStr t.title.data) = !t.title.isEmpty
    rw [likeMatch_underscore, str_isEmpty_data]
    generalize t.title.data = l
    cases l <;> rfl
  · intro t
    constructor
    · intro hb heq
      rw [heq] at hb
      exact absurd hb (by decide)
    · intro hne
      rw [isEmpty_false_of_ne t.title hne]
      rfl

/-- C6: toggling an existing task flips its status (`pending ↔ completed`),
refreshes `updated_at`, changes nothing else, and toggling twice restores
the original status with `updated_at` refreshed both times. -/
theorem C6_toggle_involution (s : Store) (id now1 now2 : Nat) (t : Task)
    (h : s.find id = some t) :
    ∃ t2 t3,
      toggle_task_status s id now1 = (.ok t2, s.updateTask id (fun _ => t2))
      ∧ t2.status = (if t.status = TaskStatus.pending then TaskStatus.completed
          else TaskStatus.pending)
      ∧ t2.status ≠ t.status
      ∧ t2.updated_at = now1 ∧ t2.created_at = t.created_at ∧ t2.id = t.id
      ∧ t2.title = t.title ∧ t2.description = t.description
      ∧ toggle_task_status (s.updateTask id (fun _ => t2)) id now2
          = (.ok t3, (s.updateTask id (fun _ => t2)).updateTask id (fun _ => t3))
      ∧ t3.status = t.status ∧ t3.updated_at = now2 := by
  set t2 : Task := ({ t with
      status := if t.status = TaskStatus.pending then TaskStatus.completed
        else TaskStatus.pending }).touch now1 with ht2
  set t3 : Task := ({ t2 with
      status := if t2.status = TaskStatus.pending then TaskStatus.completed
        else TaskStatus.pending }).touch now2 with ht3
  have he1 : toggle_task_status s id now1
      = (.ok t2, s.updateTask id (fun _ => t2)) := by
    unfold toggle_task_status
    rw [h]
  have hfind2 : (s.updateTask id (fun _ => t2)).find id = some t2 :=
    Store.find_updateTask s id (fun _ => t2) t h rfl
  have he2 : toggle_task_status (s.updateTask id (fun _ => t2)) id now2
      = (.ok t3, (s.updateTask id (fun _ => t2)).updateTask id (fun _ => t3)) := by
    unfold toggle_task_status
    rw [hfind2]
  refine ⟨t2, t3, he1, rfl, ?_, rfl, rfl, rfl, rfl, rfl, he2, ?_, rfl⟩
  · show (if t.status = TaskStatus.pending then TaskStatus.completed
      else TaskStatus.pending) ≠ t.status
    cases t.status <;> simp
  · show (if t2.status = TaskStatus.pending then TaskStatus.completed
      else TaskStatus.pending) = t.status
    have hs2 : t2.status = (if t.status = TaskStatus.pending
        then TaskStatus.completed else TaskStatus.pending) := rfl
    rw [hs2]
    cases t.status <;> simp

/-- C6 witness: toggling the sample task twice. -/
theorem C6_witness :
    ∃ t2 t3,
      toggle_task_status sampleStore 1 4
          = (.ok t2, sampleStore.updateTask 1 (fun _ => t2))
      ∧ t2.status = (if sampleTask.status = TaskStatus.pending
          then TaskStatus.completed else TaskStatus.pending)
      ∧ t2.status ≠ sampleTask.status
      ∧ t2.updated_at = 4 ∧ t2.created_at = sampleTask.created_at
      ∧ t2.id = sampleTask.id
      ∧ t2.title = sampleTask.title ∧ t2.description = sampleTask.description
      ∧ toggle_task_status (sampleStore.updateTask 1 (fun _ => t2)) 1 6
          = (.ok t3,
             (sampleStore.updateTask 1 (fun _ => t2)).updateTask 1 (fun _ => t3))
      ∧ t3.status = sampleTask.status ∧ t3.updated_at = 6 :=
  C6_toggle_involution sampleStore 1 4 6 sampleTask (by decide)

/-- C7: replacing an existing task overwrites all three mutable fields from
the request (title stored trimmed, an absent description clearing the stored
one), refreshes `updated_at`, and leaves `id` and `created_at` unchanged. -/
theorem C7_replace (s : Store) (id now : Nat) (r : RawTaskCreate)
    (p : TaskCreate) (t : Task)
    (hp : parseTaskCreate r = .ok p) (h : s.find id = some t) :
    ∃ t2, update_task s id r now = (.ok t2, s.updateTask id (fun _ => t2))
      ∧ t2.title = pyStrip p.title
      ∧ t2.description = p.description
      ∧ (r.description = .absent → t2.description = none)
      ∧ t2.status = p.status
      ∧ t2.updated_at = now ∧ t2.id = t.id ∧ t2.created_at = t.created_at := by
  set t2 : Task := { t with
      title := pyStrip p.title
      description := p.description
      status := p.status
      updated_at := now } with ht2
  have he : update_task s id r now = (.ok t2, s.updateTask id (fun _ => t2)) := by
    unfold update_task
    rw [hp, h]
  refine ⟨t2, he, rfl, rfl, ?_, rfl, rfl, rfl, rfl⟩
  intro habs
  obtain ⟨-, hdesc, -, -⟩ := parseTaskCreate_ok r p hp
  show p.description = none
  rw [hdesc, habs]
  rfl

/-- C7 witness: replacing the sample task with a padded title and no
description body. -/
theorem C7_witness :
    ∃ t2, update_task sampleStore 1 ⟨.value (" New title "), .absent, .value .completed⟩ 8
        = (.ok t2, sampleStore.updateTask 1 (fun _ => t2))
      ∧ t2.title = pyStrip (" New title ")
      ∧ t2.description = none
      ∧ ((JsonField.absent : JsonField String) = .absent → t2.description = none)
      ∧ t2.status = TaskStatus.completed
      ∧ t2.updated_at = 8 ∧ t2.id = sampleTask.id
      ∧ t2.created_at = sampleTask.created_at :=
  C7_replace sampleStore 1 8 ⟨.value (" New title "), .absent, .value .completed⟩
    ⟨pyStrip (" New title "), none, .completed⟩ sampleTask (by decide) (by decide)

/-- C9: every operation invoked with an id that is not in the store (and,
for the body-carrying operations, a body that passes validation) reports
not-found and leaves the store unchanged; deleting an already-missing id
reports not-found on both attempts without changing state. -/
theorem C9_not_found (s : Store) (id now : Nat) (rc : RawTaskCreate)
    (rp : RawTaskPatch) (h : s.find id = none) :
    get_task s id = (.error .notFound, s)
      ∧ (∀ p, parseTaskCreate rc = .ok p →
          update_task s id rc now = (.error .notFound, s))
      ∧ (∀ u, parseTaskUpdate rp = .ok u →
          patch_task s id rp now = (.error .notFound, s))
      ∧ toggle_task_status s id now = (.error .notFound, s)
      ∧ delete_task s id = (.error .notFound, s)
      ∧ delete_task (delete_task s id).2 id
          = (.error .notFound, (delete_task s id).2) := by
  have hget : get_task s id = (.error .notFound, s) := by
    unfold get_task
    rw [h]
  have hdel : delete_task s id = (.error .notFound, s) := by
    unfold delete_task
    rw [h]
  refine ⟨hget, ?_, ?_, ?_, hdel, ?_⟩
  · intro p hp
    unfold update_task
    rw [hp, h]
  · intro u hu
    unfold patch_task
    rw [hu, h]
  · unfold toggle_task_status
    rw [h]
  · rw [hdel]
    exact hdel

/-- C9 witness: all operations on the missing id 1 of the empty store. -/
theorem C9_witness :
    get_task ⟨[], 1⟩ 1 = (.error .notFound, ⟨[], 1⟩)
      ∧ (∀ p, parseTaskCreate ⟨.value ("t"), .absent, .absent⟩ = .ok p →
          update_task ⟨[], 1⟩ 1 ⟨.value ("t"), .absent, .absent⟩ 3
            = (.error .notFound, ⟨[], 1⟩))
      ∧ (∀ u, parseTaskUpdate ⟨.absent, .absent, .absent⟩ = .ok u →
          patch_task ⟨[], 1⟩ 1 ⟨.absent, .absent, .absent⟩ 3
            = (.error .notFound, ⟨[], 1⟩))
      ∧ toggle_task_status ⟨[], 1⟩ 1 3 = (.error .notFound, ⟨[], 1⟩)
      ∧ delete_task ⟨[], 1⟩ 1 = (.error .notFound, ⟨[], 1⟩)
      ∧ delete_task (delete_task ⟨[], 1⟩ 1).2 1
          = (.error .notFound, (delete_task ⟨[], 1⟩ 1).2) :=
  C9_not_found ⟨[], 1⟩ 1 3 ⟨.value ("t"), .absent, .absent⟩
    ⟨.absent, .absent, .absent⟩ (by decide)

theorem Inv_updateTask (s : Store) (tb now id : Nat) (t t2 : Task)
    (hInv : Inv s tb) (hle : tb ≤ now) (ht : t ∈ s.tasks)
    (hca : t2.created_at = t.created_at) (hua : t2.updated_at = now) :
    Inv (s.updateTask id (fun _ => t2)) now := by
  intro u hu
  obtain ⟨w, hw, hwu⟩ := List.mem_map.mp hu
  by_cases hwid : (w.id == id) = true
  · rw [if_pos hwid] at hwu
    subst hwu
    refine ⟨?_, by rw [hua]⟩
    rw [hca, hua]
    exact le_trans (hInv t ht).1 (le_trans (hInv t ht).2 hle)
  · rw [if_neg hwid] at hwu
    subst hwu
    exact ⟨(hInv w hw).1, le_trans (hInv w hw).2 hle⟩

/-- C8: the invariant `created_at ≤ updated_at` holds after every operation,
provided operation times are monotone: `create` stamps both fields with the
same instant, and every mutation moves only `updated_at`, to the operation
time, never touching `created_at`. -/
theorem C8_timestamp_invariant (s : Store) (tb now : Nat) (op : Op)
    (hInv : Inv s tb) (hle : tb ≤ now) :
    Inv (applyOp op now s) now
      ∧ (∀ r task s2, create_task s r now = (.ok task, s2) →
          task.created_at = now ∧ task.updated_at = now) := by
  constructor
  · cases op with
    | createOp r =>
      show Inv (create_task s r now).2 now
      cases hpc : parseTaskCreate r with
      | error e =>
        have hst : (create_task s r now).2 = s := by
          unfold create_task
          rw [hpc]
        rw [hst]
        exact Inv.mono s tb now hInv hle
      | ok p =>
        have hst : (create_task s r now).2
            = ⟨s.tasks ++ [⟨s.nextId, pyStrip p.title, p.description, p.status,
                now, now⟩], s.nextId + 1⟩ := by
          unfold create_task
          rw [hpc]
        rw [hst]
        intro u hu
        rcases List.mem_append.mp hu with hu | hu
        · exact ⟨(hInv u hu).1, le_trans (hInv u hu).2 hle⟩
        · rw [List.mem_singleton] at hu
          subst hu
          exact ⟨le_refl now, le_refl now⟩
    | replaceOp id r =>
      show Inv (update_task s id r now).2 now
      cases hpc : parseTaskCreate r with
      | error e =>
        have hst : (update_task s id r now).2 = s := by
          unfold update_task
          rw [hpc]
        rw [hst]
        exact Inv.mono s tb now hInv hle
      | ok p =>
        cases hf : s.find id with
        | none =>
          have hst : (update_task s id r now).2 = s := by
            unfold update_task
            rw [hpc, hf]
          rw [hst]
          exact Inv.mono s tb now hInv hle
        | some t =>
          have hst : (update_task s id r now).2
              = s.updateTask id (fun _ => { t with
                  title := pyStrip p.title
                  description := p.description
                  status := p.status
                  updated_at := now }) := by
            unfold update_task
            rw [hpc, hf]
          rw [hst]
          exact Inv_updateTask s tb now id t _ hInv hle
            (List.mem_of_find?_eq_some hf) rfl rfl
    | patchOp id r =>
      show Inv (patch_task s id r now).2 now
      cases hpc : parseTaskUpdate r with
      | error e =>
        have hst : (patch_task s id r now).2 = s := by
          unfold patch_task
          rw [hpc]
        rw [hst]
        exact Inv.mono s tb now hInv hle
      | ok p =>
        cases hf : s.find id with
        | none =>
          have hst : (patch_task s id r now).2 = s := by
            unfold patch_task
            rw [hpc, hf]
          rw [hst]
          exact Inv.mono s tb now hInv hle
        | some t =>
          have hst : (patch_task s id r now).2
              = s.updateTask id (fun _ => applyUpdate t p now) := by
            unfold patch_task
            rw [hpc, hf]
          rw [hst]
          obtain ⟨-, hca, hua, -, -, -⟩ := applyUpdate_fields t p now
          exact Inv_updateTask s tb now id t _ hInv hle
            (List.mem_of_find?_eq_some hf) hca hua
    | toggleOp id =>
      show Inv (toggle_task_status s id now).2 now
      cases hf : s.find id with
      | none =>
        have hst : (toggle_task_status s id now).2 = s := by
          unfold toggle_task_status
          rw [hf]
        rw [hst]
        exact Inv.mono s tb now hInv hle
      | some t =>
        have hst : (toggle_task_status s id now).2
            = s.updateTask id (fun _ => ({ t with
                status := if t.status = TaskStatus.pending
                  then TaskStatus.completed else TaskStatus.pending }).touch now) := by
          unfold toggle_task_status
          rw [hf]
        rw [hst]
        exact Inv_updateTask s tb now id t _ hInv hle
          (List.mem_of_find?_eq_some hf) rfl rfl
    | deleteOp id =>
      show Inv (delete_task s id).2 now
      cases hf : s.find id with
      | none =>
        have hst : (delete_task s id).2 = s := by
          unfold delete_task
          rw [hf]
        rw [hst]
        exact Inv.mono s tb now hInv hle
      | some t =>
        have hst : (delete_task s id).2
            = { s with tasks := s.tasks.filter (fun u => !(u.id == id)) } := by
          unfold delete_task
          rw [hf]
        rw [hst]
        intro u hu
        have hmem : u ∈ s.tasks := List.mem_of_mem_filter hu
        exact ⟨(hInv u hmem).1, le_trans (hInv u hmem).2 hle⟩
  · intro r task s2 hc
    unfold create_task at hc
    cases hpc : parseTaskCreate r with
    | error e =>
      rw [hpc] at hc
      simp at hc
    | ok p =>
      rw [hpc] at hc
      rw [Prod.mk.injEq] at hc
      obtain ⟨hA, -⟩ := hc
      obtain rfl := (Except.ok.inj hA).symm
      exact ⟨rfl, rfl⟩

/-- C8 witness: the invariant is preserved by a creation at time 1 starting
from the sample store, whose rows satisfy the invariant at time 0. -/
theorem C8_witness :
    Inv (applyOp (Op.createOp ⟨.value ("t"), .absent, .absent⟩) 1 sampleStore) 1
      ∧ (∀ r task s2, create_task sampleStore r 1 = (.ok task, s2) →
          task.created_at = 1 ∧ task.updated_at = 1) :=
  C8_timestamp_invariant sampleStore 0 1 (Op.createOp ⟨.value ("t"), .absent, .absent⟩)
    (by intro t ht; simp [sampleStore, sampleTask] at ht; simp [ht]) (by decide)

end TodoApi
